import Mathlib

/-!
Shallow embedding of the core of `react-webgpu-graph`:
  * the WebGPU primitive-batching renderer (`src/rendering/gpu-renderer.ts`):
    vertex expansion of rects / line segments / circles, the scissor-rect
    computation, the draw entry point and `destroy`;
  * the zoom / pan pointer state machine (`useChartZoom`);
  * the animation tick loop and the entrance-trigger effect
    (`useChartAnimation` in `src/charts/TimelineChart.tsx`).

JavaScript numbers are modelled as rationals (every finite double is a
rational).  The transcendental library functions `Math.sqrt`, `Math.cos`,
`Math.sin` and the constant `Math.PI`, as well as the CSS colour parser
`parseColor`, are abstracted as parameters: the embedded code is a function
of them, exactly as the source is a client of the maths library.
-/

namespace WebGPUGraph

/-! ## Renderer data model (`gpu-renderer.ts`) -/

/-- Floats per vertex: position(x,y) + color(r,g,b,a), `FLOATS_PER_VERTEX`. -/
def FLOATS_PER_VERTEX : ℕ := 6

/-- Axis-aligned rectangle primitive (`Rect`). -/
structure Rect where
  x : ℚ
  y : ℚ
  w : ℚ
  h : ℚ
  color : String
deriving Repr, DecidableEq

/-- Line-segment primitive (`Line`); `width` is optional (default 1). -/
structure Line where
  x1 : ℚ
  y1 : ℚ
  x2 : ℚ
  y2 : ℚ
  color : String
  width : Option ℚ
deriving Repr, DecidableEq

/-- Disk primitive (`Circle`); `segments` is optional (default 24). -/
structure Circle where
  cx : ℚ
  cy : ℚ
  r : ℚ
  color : String
  segments : Option ℕ
deriving Repr, DecidableEq

/-- RGBA colour, the result of `parseColor`. -/
abbrev RGBA := ℚ × ℚ × ℚ × ℚ

/-- Pixel-space clip rectangle passed to `draw`. -/
structure ClipRect where
  x : ℚ
  y : ℚ
  width : ℚ
  height : ℚ
deriving Repr, DecidableEq

/-- JavaScript `Math.round`: round half toward positive infinity. -/
def jsRound (q : ℚ) : ℤ := ⌊q + 1/2⌋

/-- Triangle emission `pushTri`: three vertices of 6 floats each, colour
    replicated per vertex (lines 204-216 of `gpu-renderer.ts`). -/
def pushTri (x0 y0 x1 y1 x2 y2 : ℚ) (c : RGBA) : List ℚ :=
  [x0, y0, c.1, c.2.1, c.2.2.1, c.2.2.2,
   x1, y1, c.1, c.2.1, c.2.2.1, c.2.2.2,
   x2, y2, c.1, c.2.1, c.2.2.1, c.2.2.2]

/-- Pixel → NDC x conversion `nx` for canvas width `w`. -/
def nxF (w px : ℚ) : ℚ := px / w * 2 - 1

/-- Pixel → NDC y conversion `ny` for canvas height `h` (Y flipped). -/
def nyF (h py : ℚ) : ℚ := 1 - py / h * 2

/-- Vertex floats produced for one `Rect` (two triangles, lines 219-227). -/
def rectVerts (pc : String → RGBA) (w h : ℚ) (r : Rect) : List ℚ :=
  let c := pc r.color
  let x0 := nxF w r.x
  let y0 := nyF h r.y
  let x1 := nxF w (r.x + r.w)
  let y1 := nyF h (r.y + r.h)
  pushTri x0 y0 x1 y0 x0 y1 c ++ pushTri x1 y0 x1 y1 x0 y1 c

/-- Length actually divided by in the line-quad expansion (line 235):
    `Math.sqrt(dx*dx+dy*dy) || 1`, i.e. a zero length is replaced by 1. -/
def lineLen (sqrtF : ℚ → ℚ) (l : Line) : ℚ :=
  let dx := l.x2 - l.x1
  let dy := l.y2 - l.y1
  let len0 := sqrtF (dx * dx + dy * dy)
  if len0 = 0 then 1 else len0

/-- Vertex floats produced for one `Line` (oriented quad, lines 230-250). -/
def lineVerts (pc : String → RGBA) (sqrtF : ℚ → ℚ) (w h : ℚ) (l : Line) : List ℚ :=
  let c := pc l.color
  let lw := (l.width.getD 1) / 2
  let dx := l.x2 - l.x1
  let dy := l.y2 - l.y1
  let len := lineLen sqrtF l
  let px := (-dy / len) * lw
  let py := (dx / len) * lw
  let ax := nxF w (l.x1 + px)
  let ay := nyF h (l.y1 + py)
  let bx := nxF w (l.x1 - px)
  let by' := nyF h (l.y1 - py)
  let cx := nxF w (l.x2 - px)
  let cy := nyF h (l.y2 - py)
  let ex := nxF w (l.x2 + px)
  let ey := nyF h (l.y2 + py)
  pushTri ax ay bx by' cx cy c ++ pushTri ax ay ex ey cx cy c

/-- Vertex floats produced for one `Circle` (`segments` fan triangles,
    lines 253-271); `piF`, `cosF`, `sinF` abstract `Math.PI/cos/sin`. -/
def circleVerts (pc : String → RGBA) (cosF sinF : ℚ → ℚ) (piF : ℚ)
    (w h : ℚ) (ci : Circle) : List ℚ :=
  let c := pc ci.color
  let seg := ci.segments.getD 24
  let cxN := nxF w ci.cx
  let cyN := nyF h ci.cy
  (List.range seg).flatMap fun i =>
    let a0 := ((i : ℚ) / seg) * piF * 2
    let a1 := (((i : ℚ) + 1) / seg) * piF * 2
    pushTri cxN cyN
      (nxF w (ci.cx + cosF a0 * ci.r)) (nyF h (ci.cy + sinF a0 * ci.r))
      (nxF w (ci.cx + cosF a1 * ci.r)) (nyF h (ci.cy + sinF a1 * ci.r)) c

/-- Flat vertex list built by one `draw` call (the `verts` array). -/
def drawVerts (pc : String → RGBA) (sqrtF cosF sinF : ℚ → ℚ) (piF : ℚ)
    (w h : ℚ) (rects : List Rect) (lines : List Line) (circles : List Circle) :
    List ℚ :=
  rects.flatMap (rectVerts pc w h) ++
  lines.flatMap (lineVerts pc sqrtF w h) ++
  circles.flatMap (circleVerts pc cosF sinF piF w h)

/-- Scissor rectangle computation inside `draw` (lines 317-325): origin
    clamped below at 0, extent truncated so the rectangle does not cross the
    right / bottom canvas edge; returns `none` when the truncated width or
    height is not positive, in which case `setScissorRect` is never called. -/
def scissorOf (w h : ℚ) (clip : ClipRect) : Option (ℚ × ℚ × ℚ × ℚ) :=
  let cx : ℚ := max 0 (jsRound clip.x)
  let cy : ℚ := max 0 (jsRound clip.y)
  let cw : ℚ := min (w - cx) (jsRound clip.width)
  let ch : ℚ := min (h - cy) (jsRound clip.height)
  if 0 < cw ∧ 0 < ch then some (cx, cy, cw, ch) else none

/-- Spec-worded clamping of a clip rectangle to the canvas bounds
    `[0,w] × [0,h]` (the literal geometric intersection, after the same
    rounding the code applies to each field); used to compare the claimed
    behaviour with `scissorOf`. -/
def clampRectSpec (w h : ℚ) (clip : ClipRect) : ℚ × ℚ × ℚ × ℚ :=
  let x1 : ℚ := max 0 (jsRound clip.x)
  let y1 : ℚ := max 0 (jsRound clip.y)
  let x2 : ℚ := min w ((jsRound clip.x : ℚ) + (jsRound clip.width : ℚ))
  let y2 : ℚ := min h ((jsRound clip.y : ℚ) + (jsRound clip.height : ℚ))
  (x1, y1, x2 - x1, y2 - y1)

/-- Renderer state: which GPU objects are live (`null` = `false`/`none`),
    the canvas (with its pixel size) and the MSAA bookkeeping. -/
structure GPURenderer where
  device : Bool
  context : Bool
  pipeline : Bool
  canvas : Option (ℚ × ℚ)
  ready : Bool
  msaaTexture : Bool
  msaaWidth : ℚ
  msaaHeight : ℚ
deriving Repr, DecidableEq

/-- Recorded effect of one `queue.submit`: the vertex counts of the draw
    calls encoded in the pass (empty for a clear-only pass) and the scissor
    rectangle that was set, if any. -/
structure Submission where
  clearValue : RGBA
  draws : List ℕ
  scissor : Option (ℚ × ℚ × ℚ × ℚ)
deriving Repr, DecidableEq

/-- MSAA texture upkeep `ensureMsaaTexture` (lines 337-351). -/
def ensureMsaaTexture (r : GPURenderer) (width height : ℚ) : GPURenderer :=
  if ¬ r.device then r
  else if r.msaaTexture ∧ r.msaaWidth = width ∧ r.msaaHeight = height then r
  else { r with msaaTexture := true, msaaWidth := width, msaaHeight := height }

/-- One `GPURenderer.draw` call (lines 186-332): returns the renderer state
    after the call together with the list of queue submissions it issued.
    The guard on line 193 makes the call a pure no-op unless device, context,
    pipeline and canvas are all live. -/
def draw (pc : String → RGBA) (sqrtF cosF sinF : ℚ → ℚ) (piF : ℚ)
    (r : GPURenderer) (rects : List Rect) (lines : List Line)
    (circles : List Circle) (bgColor : RGBA) (clip : Option ClipRect) :
    GPURenderer × List Submission :=
  match r.canvas with
  | none => (r, [])
  | some (w, h) =>
    if ¬ (r.device ∧ r.context ∧ r.pipeline) then (r, [])
    else
      let verts := drawVerts pc sqrtF cosF sinF piF w h rects lines circles
      let r' := ensureMsaaTexture r w h
      if verts.length = 0 then
        (r', [{ clearValue := bgColor, draws := [], scissor := none }])
      else
        (r', [{ clearValue := bgColor,
                draws := [verts.length / FLOATS_PER_VERTEX],
                scissor := clip.bind (scissorOf w h) }])

/-- Teardown `GPURenderer.destroy` (lines 353-362): releases the MSAA
    texture and the device, nulls context and pipeline, clears `ready`.
    The canvas reference and the cached MSAA dimensions are left as-is. -/
def destroy (r : GPURenderer) : GPURenderer :=
  { r with msaaTexture := false, device := false, context := false,
           pipeline := false, ready := false }

/-! ## Zoom / pan state machine (`useChartZoom`) -/

/-- Fractional zoom window (`ZoomRange`). -/
structure ZoomRange where
  xMin : ℚ
  xMax : ℚ
  yMin : ℚ
  yMax : ℚ
deriving Repr, DecidableEq

/-- Selection overlay rectangle (`SelectionRect`). -/
structure SelectionRect where
  x : ℚ
  y : ℚ
  width : ℚ
  height : ℚ
deriving Repr, DecidableEq

/-- Identity viewport `NO_ZOOM`. -/
def NO_ZOOM : ZoomRange := { xMin := 0, xMax := 1, yMin := 0, yMax := 1 }

/-- Direction-lock threshold `DIR_THRESHOLD` (px). -/
def DIR_THRESHOLD : ℚ := 5

/-- Minimum selection size `MIN_SELECTION` (px). -/
def MIN_SELECTION : ℚ := 8

/-- Drag mode (`DragMode`). -/
inductive DragMode where
  | none
  | select
  | pan
deriving Repr, DecidableEq

/-- Axis lock of a selection drag (`DragDir`). -/
inductive DragDir where
  | undecided
  | x
  | y
deriving Repr, DecidableEq

/-- Transient drag session (`DragState`). -/
structure DragState where
  mode : DragMode
  dir : DragDir
  startX : ℚ
  startY : ℚ
  lastX : ℚ
  lastY : ℚ
  zoomAtStart : ZoomRange
deriving Repr, DecidableEq

/-- Plot rectangle in pixels (the `ChartLayout` fields the hook reads). -/
structure Plot where
  plotX : ℚ
  plotY : ℚ
  plotWidth : ℚ
  plotHeight : ℚ
deriving Repr, DecidableEq

/-- Outcome of one `handleZoomMouseMove` call: the updated drag session,
    `some` zoom iff `setZoom` was called, `some` rectangle iff
    `setSelection` published an overlay, and the returned consumed flag. -/
structure MoveResult where
  drag : DragState
  zoom : Option ZoomRange
  selection : Option SelectionRect
  consumed : Bool
deriving Repr, DecidableEq

/-- Joint clamp of one axis pair applied while panning (lines 210-230 of
    `useChartZoom`, used once per axis): shift the pair up when the lower
    bound went below 0, down when the upper bound went above 1, then the
    final `Math.max`/`Math.min` guards. -/
def clampPan (lo hi : ℚ) : ℚ × ℚ :=
  let p1 : ℚ × ℚ := if lo < 0 then (0, hi - lo) else (lo, hi)
  let p2 : ℚ × ℚ := if p1.2 > 1 then (p1.1 - (p1.2 - 1), 1) else p1
  (max 0 p2.1, min 1 p2.2)

/-- One `handleZoomMouseMove` call (lines 158-239) at container-relative
    pointer position `(mx, my)`. -/
def handleZoomMouseMove (plot : Plot) (drag0 : DragState) (mx my : ℚ) :
    MoveResult :=
  if drag0.mode = DragMode.none then
    { drag := drag0, zoom := none, selection := none, consumed := false }
  else
    let drag := { drag0 with lastX := mx, lastY := my }
    match drag.mode with
    | DragMode.select =>
      let dx := |mx - drag.startX|
      let dy := |my - drag.startY|
      let locked : Option DragDir :=
        match drag.dir with
        | DragDir.undecided =>
          if dx ≥ DIR_THRESHOLD ∨ dy ≥ DIR_THRESHOLD then
            some (if dx ≥ dy then DragDir.x else DragDir.y)
          else none
        | d => some d
      match locked with
      | none =>
        { drag := drag, zoom := none, selection := none, consumed := true }
      | some DragDir.x =>
        let x1 := max plot.plotX (min mx drag.startX)
        let x2 := min (plot.plotX + plot.plotWidth) (max mx drag.startX)
        { drag := { drag with dir := DragDir.x },
          zoom := none,
          selection := some { x := x1, y := plot.plotY,
                              width := x2 - x1, height := plot.plotHeight },
          consumed := true }
      | some _ =>
        let y1 := max plot.plotY (min my drag.startY)
        let y2 := min (plot.plotY + plot.plotHeight) (max my drag.startY)
        { drag := { drag with dir := DragDir.y },
          zoom := none,
          selection := some { x := plot.plotX, y := y1,
                              width := plot.plotWidth, height := y2 - y1 },
          consumed := true }
    | DragMode.pan =>
      let dxPx := mx - drag.startX
      let dyPx := my - drag.startY
      let zs := drag.zoomAtStart
      let spanX := zs.xMax - zs.xMin
      let spanY := zs.yMax - zs.yMin
      let dfx := -(dxPx / plot.plotWidth) * spanX
      let dfy := (dyPx / plot.plotHeight) * spanY
      let px := clampPan (zs.xMin + dfx) (zs.xMax + dfx)
      let py := clampPan (zs.yMin + dfy) (zs.yMax + dfy)
      { drag := drag,
        zoom := some { xMin := px.1, xMax := px.2, yMin := py.1, yMax := py.2 },
        selection := none,
        consumed := true }
    | DragMode.none =>
      { drag := drag, zoom := none, selection := none, consumed := false }

/-- One `handleZoomMouseUp` call (lines 244-286): possibly commits a zoom,
    then always clears the drag session and the selection overlay.  Returns
    the zoom after the call, the drag session after the call and the
    published selection after the call. -/
def handleZoomMouseUp (plot : Plot) (zoom : ZoomRange) (drag : DragState)
    (sel : Option SelectionRect) (mx my : ℚ) :
    ZoomRange × DragState × Option SelectionRect :=
  if drag.mode = DragMode.none then (zoom, drag, sel)
  else
    let zoom' :=
      if drag.mode = DragMode.select ∧ drag.dir ≠ DragDir.undecided then
        match drag.dir with
        | DragDir.x =>
          let x1 := max plot.plotX (min mx drag.startX)
          let x2 := min (plot.plotX + plot.plotWidth) (max mx drag.startX)
          if x2 - x1 ≥ MIN_SELECTION then
            let fracLeft := (x1 - plot.plotX) / plot.plotWidth
            let fracRight := (x2 - plot.plotX) / plot.plotWidth
            let curSpan := zoom.xMax - zoom.xMin
            { zoom with xMin := zoom.xMin + fracLeft * curSpan,
                        xMax := zoom.xMin + fracRight * curSpan }
          else zoom
        | DragDir.y =>
          let y1 := max plot.plotY (min my drag.startY)
          let y2 := min (plot.plotY + plot.plotHeight) (max my drag.startY)
          if y2 - y1 ≥ MIN_SELECTION then
            let fracTop := (y1 - plot.plotY) / plot.plotHeight
            let fracBottom := (y2 - plot.plotY) / plot.plotHeight
            let curSpan := zoom.yMax - zoom.yMin
            { zoom with yMin := zoom.yMax - fracBottom * curSpan,
                        yMax := zoom.yMax - fracTop * curSpan }
          else zoom
        | DragDir.undecided => zoom
      else zoom
    (zoom', { drag with mode := DragMode.none, dir := DragDir.undecided }, none)

/-! ## Animation scheduler (`useChartAnimation` in `TimelineChart.tsx`) -/

/-- Easing curve `easeOutCubic`. -/
def easeOutCubic (t : ℚ) : ℚ := 1 - (1 - t) ^ 3

/-- Snap epsilon used by the visibility track (`0.001`). -/
def VIS_EPS : ℚ := 1 / 1000

/-- Numeric state read and written by one animation tick: the refs
    `enterStartRef`, `enterProgressRef`, `visFromRef`, `visToRef`,
    `visCurrentRef`, `visStartTimeRef` and `seriesCountRef`.  The resize
    block of the hook keeps the three visibility arrays at length
    `seriesCount`. -/
structure AnimState where
  enterStart : ℚ
  enterProgress : ℚ
  visFrom : List ℚ
  visTo : List ℚ
  visCurrent : List ℚ
  visStart : ℚ
  seriesCount : ℕ
deriving Repr, DecidableEq

/-- One animation tick (the `tick` closure, lines 591-631) at timestamp
    `now` with duration `dur`: returns the updated state and the `allDone`
    flag; `allDone = true` means the tick returns without calling
    `requestAnimationFrame`, i.e. the loop stops. -/
def tick (dur : ℚ) (s : AnimState) (now : ℚ) : AnimState × Bool :=
  let enterPair : ℚ × Bool :=
    if s.enterProgress < 1 then
      let t := max 0 ((now - s.enterStart) / dur)
      let p := min 1 (easeOutCubic t)
      (p, decide (¬ p < 1))
    else (s.enterProgress, true)
  let visT := min 1 (easeOutCubic (max 0 ((now - s.visStart) / dur)))
  let step : ℕ → ℚ × Bool := fun i =>
    let fromV := s.visFrom.getD i 1
    let toV := s.visTo.getD i 1
    if |fromV - toV| < VIS_EPS then (toV, true)
    else
      let val := fromV + (toV - fromV) * visT
      if |val - toV| < VIS_EPS then (toV, true) else (val, false)
  let results := (List.range s.seriesCount).map step
  ({ s with enterProgress := enterPair.1,
            visCurrent := results.map Prod.fst },
   enterPair.2 && results.all Prod.snd)

/-- State after running the ticks at timestamps `f 0, …, f (n-1)`. -/
def ticksRun (dur : ℚ) (f : ℕ → ℚ) (s : AnimState) : ℕ → AnimState
  | 0 => s
  | n + 1 => (tick dur (ticksRun dur f s n) (f n)).1

/-- State of the entrance trigger: the refs `hasEnteredRef` and
    `enterProgressRef`, plus a counter of how many times the entrance track
    was started (`startLoop` invoked from the enter-trigger effect). -/
structure EnterState where
  hasEntered : Bool
  progress : ℚ
  startCount : ℕ
deriving Repr, DecidableEq

/-- Initial refs of the hook (lines 562-566): `hasEnteredRef = false` and
    `enterProgressRef = enabled ? 0 : 1` for the mount-time `enabled`. -/
def enterInit (enabled : Bool) : EnterState :=
  { hasEntered := false, progress := if enabled then 0 else 1, startCount := 0 }

/-- One pass of the enter-trigger effect (lines 637-648) with the current
    `ready` / `enabled` props: when ready and not yet entered while enabled,
    fire the entrance (progress reset to 0, loop started); otherwise, when
    ready, force progress to 1. -/
def enterEffect (s : EnterState) (ready enabled : Bool) : EnterState :=
  if ¬ ready then s
  else if ¬ s.hasEntered ∧ enabled then
    { hasEntered := true, progress := 0, startCount := s.startCount + 1 }
  else { s with progress := 1 }

/-- Folding the enter-trigger effect over a sequence of
    `(ready, enabled)` prop transitions. -/
def enterRun (s : EnterState) : List (Bool × Bool) → EnterState
  | [] => s
  | p :: rest => enterRun (enterEffect s p.1 p.2) rest

/-! ## Theorems -/

/-- C8: the quad expansion of a line segment never divides by zero — the
    length value it divides by is nonzero for every segment; for a
    degenerate zero-length segment (`x1 = x2`, `y1 = y2`, given that the
    square-root function sends 0 to 0 as `Math.sqrt` does) the substituted
    length is exactly 1; and the expansion is total, always producing the
    two triangles (36 floats) of the quad rather than signaling an error. -/
theorem C8_line_expansion_total (pc : String → RGBA) (sqrtF : ℚ → ℚ)
    (w h : ℚ) (l : Line) :
    lineLen sqrtF l ≠ 0 ∧
    (sqrtF 0 = 0 → l.x1 = l.x2 → l.y1 = l.y2 → lineLen sqrtF l = 1) ∧
    (lineVerts pc sqrtF w h l).length = 36 := by
  refine ⟨?_, ?_, ?_⟩
  · unfold lineLen
    dsimp only
    split_ifs with h0
    · exact one_ne_zero
    · exact h0
  · intro hs hx hy
    unfold lineLen
    rw [hx, hy]
    simp [hs]
  · rfl

/-- C8 witness: concrete evaluation on the degenerate segment from (3,4)
    to (3,4) with the identity as square root. -/
theorem C8_line_expansion_total_witness :
    lineLen id { x1 := 3, y1 := 4, x2 := 3, y2 := 4, color := "red",
                 width := none } = 1 :=
  (C8_line_expansion_total (fun _ => (0, 0, 0, 1)) id 100 100
      { x1 := 3, y1 := 4, x2 := 3, y2 := 4, color := "red",
        width := none }).2.1 rfl rfl rfl

/-- C9: `destroy` is idempotent — a second call on an already-destroyed
    renderer produces the same final state, in which device, context,
    pipeline and the MSAA texture are all released and `ready` is false —
    and any `draw` call after `destroy` returns without issuing a
    submission and without mutating any renderer state. -/
theorem C9_destroy_idempotent_draw_noop (pc : String → RGBA)
    (sqrtF cosF sinF : ℚ → ℚ) (piF : ℚ) (r : GPURenderer)
    (rects : List Rect) (lines : List Line) (circles : List Circle)
    (bg : RGBA) (clip : Option ClipRect) :
    destroy (destroy r) = destroy r ∧
    (destroy r).device = false ∧ (destroy r).context = false ∧
    (destroy r).pipeline = false ∧ (destroy r).msaaTexture = false ∧
    (destroy r).ready = false ∧
    draw pc sqrtF cosF sinF piF (destroy r) rects lines circles bg clip
      = (destroy r, []) := by
  refine ⟨rfl, rfl, rfl, rfl, rfl, rfl, ?_⟩
  unfold draw
  cases hc : (destroy r).canvas with
  | none => rfl
  | some wh => simp [destroy]

/-- C7: when a selecting drag with a locked axis ends while the clamped
    pixel extent on the locked axis is below the 8-pixel threshold,
    pointer-up leaves the viewport exactly unchanged and only clears the
    drag session (mode back to none, lock back to undecided) and the
    selection overlay. -/
theorem C7_small_selection_no_zoom (plot : Plot) (zoom : ZoomRange)
    (drag : DragState) (sel : Option SelectionRect) (mx my : ℚ)
    (hmode : drag.mode = DragMode.select)
    (hsmall :
      (drag.dir = DragDir.x ∧
        min (plot.plotX + plot.plotWidth) (max mx drag.startX) -
          max plot.plotX (min mx drag.startX) < MIN_SELECTION) ∨
      (drag.dir = DragDir.y ∧
        min (plot.plotY + plot.plotHeight) (max my drag.startY) -
          max plot.plotY (min my drag.startY) < MIN_SELECTION)) :
    handleZoomMouseUp plot zoom drag sel mx my
      = (zoom,
         { drag with mode := DragMode.none, dir := DragDir.undecided },
         none) := by
  unfold handleZoomMouseUp
  rcases hsmall with ⟨hdir, hlt⟩ | ⟨hdir, hlt⟩ <;>
    simp [hmode, hdir, not_le.mpr hlt]

/-- C7 witness: a 6-pixel x-locked selection (start 100, release 106) in a
    plot of width 400 starting at x = 50 commits nothing. -/
theorem C7_small_selection_no_zoom_witness :
    handleZoomMouseUp
        { plotX := 50, plotY := 20, plotWidth := 400, plotHeight := 300 }
        NO_ZOOM
        { mode := DragMode.select, dir := DragDir.x, startX := 100,
          startY := 100, lastX := 106, lastY := 100, zoomAtStart := NO_ZOOM }
        none 106 100
      = (NO_ZOOM,
         { mode := DragMode.none, dir := DragDir.undecided, startX := 100,
           startY := 100, lastX := 106, lastY := 100, zoomAtStart := NO_ZOOM },
         none) :=
  C7_small_selection_no_zoom
    { plotX := 50, plotY := 20, plotWidth := 400, plotHeight := 300 }
    NO_ZOOM
    { mode := DragMode.select, dir := DragDir.x, startX := 100,
      startY := 100, lastX := 106, lastY := 100, zoomAtStart := NO_ZOOM }
    none 106 100 rfl (Or.inl ⟨rfl, by norm_num [MIN_SELECTION]⟩)

/-- C10: while a selecting drag is still axis-undecided, the first
    pointer-move whose absolute displacement reaches the 5-pixel threshold
    on either axis locks the direction — to the x axis exactly when
    `|dx| ≥ |dy|` (so an exact tie locks to x), to the y axis otherwise;
    a move below the threshold keeps the lock undecided, publishes no
    selection overlay, and still consumes the event. -/
theorem C10_axis_lock_tiebreak (plot : Plot) (drag : DragState) (mx my : ℚ)
    (hmode : drag.mode = DragMode.select)
    (hdir : drag.dir = DragDir.undecided) :
    ((|mx - drag.startX| ≥ DIR_THRESHOLD ∨ |my - drag.startY| ≥ DIR_THRESHOLD) →
      (((handleZoomMouseMove plot drag mx my).drag.dir = DragDir.x ↔
          |mx - drag.startX| ≥ |my - drag.startY|) ∧
       (¬ |mx - drag.startX| ≥ |my - drag.startY| →
          (handleZoomMouseMove plot drag mx my).drag.dir = DragDir.y))) ∧
    ((¬ |mx - drag.startX| ≥ DIR_THRESHOLD ∧
      ¬ |my - drag.startY| ≥ DIR_THRESHOLD) →
      (handleZoomMouseMove plot drag mx my).drag.dir = DragDir.undecided ∧
      (handleZoomMouseMove plot drag mx my).selection = none ∧
      (handleZoomMouseMove plot drag mx my).consumed = true) := by
  constructor
  · intro hth
    unfold handleZoomMouseMove
    simp only [hmode, hdir]
    rw [if_neg (by simp), if_pos hth]
    by_cases hxy : |mx - drag.startX| ≥ |my - drag.startY|
    · simp [hxy]
    · simp [hxy]
  · intro ⟨hx, hy⟩
    unfold handleZoomMouseMove
    simp only [hmode, hdir]
    rw [if_neg (by simp), if_neg (by tauto)]
    simp [hdir]

/-- C10 witness: from start point (0,0), a move to (5,5) reaches the
    threshold with an exact tie `|dx| = |dy| = 5` and locks to the x axis. -/
theorem C10_axis_lock_tiebreak_witness :
    (handleZoomMouseMove
        { plotX := 0, plotY := 0, plotWidth := 400, plotHeight := 300 }
        { mode := DragMode.select, dir := DragDir.undecided, startX := 0,
          startY := 0, lastX := 0, lastY := 0, zoomAtStart := NO_ZOOM }
        5 5).drag.dir = DragDir.x := by
  have h := C10_axis_lock_tiebreak
    { plotX := 0, plotY := 0, plotWidth := 400, plotHeight := 300 }
    { mode := DragMode.select, dir := DragDir.undecided, startX := 0,
      startY := 0, lastX := 0, lastY := 0, zoomAtStart := NO_ZOOM }
    5 5 rfl rfl
  exact (h.1 (Or.inl (by norm_num [DIR_THRESHOLD]))).1.mpr (by norm_num)

/-- Helper: the per-axis pan clamp preserves the span and lands the pair
    inside `[0,1]` whenever the span is positive and at most 1. -/
theorem clampPan_spec (lo hi : ℚ) (h1 : 0 < hi - lo) (h2 : hi - lo ≤ 1) :
    0 ≤ (clampPan lo hi).1 ∧ (clampPan lo hi).1 < (clampPan lo hi).2 ∧
    (clampPan lo hi).2 ≤ 1 ∧ (clampPan lo hi).2 - (clampPan lo hi).1 = hi - lo := by
  unfold clampPan
  dsimp only
  split_ifs with ha hb hb <;>
    refine ⟨?_, ?_, ?_, ?_⟩ <;>
    simp only [max_def, min_def] <;>
    first
      | linarith
      | (split_ifs <;> linarith)

/-- C2: a pan pointer-move starting from a gesture-start viewport with
    `0 ≤ xMin < xMax ≤ 1` and `0 ≤ yMin < yMax ≤ 1` publishes a viewport
    that again satisfies those bounds and whose per-axis spans equal the
    spans of the gesture-start viewport — panning moves the window but
    never changes the zoom level. -/
theorem C2_pan_clamp_invariant (plot : Plot) (drag : DragState) (mx my : ℚ)
    (hmode : drag.mode = DragMode.pan)
    (hx0 : 0 ≤ drag.zoomAtStart.xMin)
    (hx1 : drag.zoomAtStart.xMin < drag.zoomAtStart.xMax)
    (hx2 : drag.zoomAtStart.xMax ≤ 1)
    (hy0 : 0 ≤ drag.zoomAtStart.yMin)
    (hy1 : drag.zoomAtStart.yMin < drag.zoomAtStart.yMax)
    (hy2 : drag.zoomAtStart.yMax ≤ 1) :
    ∃ z : ZoomRange,
      (handleZoomMouseMove plot drag mx my).zoom = some z ∧
      0 ≤ z.xMin ∧ z.xMin < z.xMax ∧ z.xMax ≤ 1 ∧
      0 ≤ z.yMin ∧ z.yMin < z.yMax ∧ z.yMax ≤ 1 ∧
      z.xMax - z.xMin = drag.zoomAtStart.xMax - drag.zoomAtStart.xMin ∧
      z.yMax - z.yMin = drag.zoomAtStart.yMax - drag.zoomAtStart.yMin := by
  set zs := drag.zoomAtStart with hzs
  set dfx := -((mx - drag.startX) / plot.plotWidth) * (zs.xMax - zs.xMin)
    with hdfx
  set dfy := (my - drag.startY) / plot.plotHeight * (zs.yMax - zs.yMin)
    with hdfy
  have hcx := clampPan_spec (zs.xMin + dfx) (zs.xMax + dfx)
    (by linarith) (by linarith)
  have hcy := clampPan_spec (zs.yMin + dfy) (zs.yMax + dfy)
    (by linarith) (by linarith)
  refine ⟨{ xMin := (clampPan (zs.xMin + dfx) (zs.xMax + dfx)).1,
            xMax := (clampPan (zs.xMin + dfx) (zs.xMax + dfx)).2,
            yMin := (clampPan (zs.yMin + dfy) (zs.yMax + dfy)).1,
            yMax := (clampPan (zs.yMin + dfy) (zs.yMax + dfy)).2 }, ?_,
          hcx.1, hcx.2.1, hcx.2.2.1,
          hcy.1, hcy.2.1, hcy.2.2.1, ?_, ?_⟩
  · unfold handleZoomMouseMove
    simp only [hmode]
    rw [if_neg (by simp)]
  · rw [hcx.2.2.2]; ring
  · rw [hcy.2.2.2]; ring

/-- C2 witness: panning right by 100px in a 400px-wide plot from the
    gesture-start viewport `[0.25,0.75] × [0.25,0.75]` yields the shifted
    viewport `[0.125,0.625] × [0.25,0.75]`, valid and span-preserving. -/
theorem C2_pan_clamp_invariant_witness :
    ∃ z : ZoomRange,
      (handleZoomMouseMove
          { plotX := 0, plotY := 0, plotWidth := 400, plotHeight := 300 }
          { mode := DragMode.pan, dir := DragDir.undecided, startX := 100,
            startY := 100, lastX := 100, lastY := 100,
            zoomAtStart := { xMin := 1/4, xMax := 3/4,
                             yMin := 1/4, yMax := 3/4 } }
          200 100).zoom = some z ∧
      0 ≤ z.xMin ∧ z.xMin < z.xMax ∧ z.xMax ≤ 1 ∧
      0 ≤ z.yMin ∧ z.yMin < z.yMax ∧ z.yMax ≤ 1 ∧
      z.xMax - z.xMin = (1 : ℚ)/2 ∧ z.yMax - z.yMin = (1 : ℚ)/2 := by
  obtain ⟨z, hz, h1, h2, h3, h4, h5, h6, h7, h8⟩ :=
    C2_pan_clamp_invariant
      { plotX := 0, plotY := 0, plotWidth := 400, plotHeight := 300 }
      { mode := DragMode.pan, dir := DragDir.undecided, startX := 100,
        startY := 100, lastX := 100, lastY := 100,
        zoomAtStart := { xMin := 1/4, xMax := 3/4,
                         yMin := 1/4, yMax := 3/4 } }
      200 100 rfl (by norm_num) (by norm_num) (by norm_num)
      (by norm_num) (by norm_num) (by norm_num)
  exact ⟨z, hz, h1, h2, h3, h4, h5, h6,
         by rw [h7]; norm_num, by rw [h8]; norm_num⟩

/-- C3: a selecting drag locked to an axis ending with clamped pixel extent
    at least 8 commits a viewport that composes with the current zoom: for
    the x axis, with `a = (x1-plotX)/plotWidth` and `b = (x2-plotX)/plotWidth`
    computed from the clamped selection ends, the new bounds are
    `xMin + a·span` and `xMin + b·span`; for the y axis, symmetrically
    downward from `yMax`.  The other axis pair is left untouched. -/
theorem C3_zoom_composition (plot : Plot) (zoom : ZoomRange)
    (drag : DragState) (sel : Option SelectionRect) (mx my : ℚ)
    (hmode : drag.mode = DragMode.select) :
    (drag.dir = DragDir.x →
      min (plot.plotX + plot.plotWidth) (max mx drag.startX) -
          max plot.plotX (min mx drag.startX) ≥ MIN_SELECTION →
      (handleZoomMouseUp plot zoom drag sel mx my).1 =
        { zoom with
            xMin := zoom.xMin +
              (max plot.plotX (min mx drag.startX) - plot.plotX) /
                plot.plotWidth * (zoom.xMax - zoom.xMin),
            xMax := zoom.xMin +
              (min (plot.plotX + plot.plotWidth) (max mx drag.startX) -
                plot.plotX) / plot.plotWidth * (zoom.xMax - zoom.xMin) }) ∧
    (drag.dir = DragDir.y →
      min (plot.plotY + plot.plotHeight) (max my drag.startY) -
          max plot.plotY (min my drag.startY) ≥ MIN_SELECTION →
      (handleZoomMouseUp plot zoom drag sel mx my).1 =
        { zoom with
            yMin := zoom.yMax -
              (min (plot.plotY + plot.plotHeight) (max my drag.startY) -
                plot.plotY) / plot.plotHeight * (zoom.yMax - zoom.yMin),
            yMax := zoom.yMax -
              (max plot.plotY (min my drag.startY) - plot.plotY) /
                plot.plotHeight * (zoom.yMax - zoom.yMin) }) := by
  constructor
  · intro hdir hbig
    unfold handleZoomMouseUp
    simp [hmode, hdir, hbig]
  · intro hdir hbig
    unfold handleZoomMouseUp
    simp [hmode, hdir, hbig]

/-- C3 witness: in a plot spanning x-pixels 0..400, selecting the middle
    50% (pixels 100..300) from the identity viewport commits
    `xMin = 0.25, xMax = 0.75`; an identical second selection on the
    already-zoomed view narrows proportionally to
    `xMin = 0.375, xMax = 0.625` — composition, not replacement. -/
theorem C3_zoom_composition_witness :
    (handleZoomMouseUp
        { plotX := 0, plotY := 0, plotWidth := 400, plotHeight := 300 }
        NO_ZOOM
        { mode := DragMode.select, dir := DragDir.x, startX := 100,
          startY := 50, lastX := 300, lastY := 50, zoomAtStart := NO_ZOOM }
        none 300 50).1
      = { xMin := 1/4, xMax := 3/4, yMin := 0, yMax := 1 } ∧
    (handleZoomMouseUp
        { plotX := 0, plotY := 0, plotWidth := 400, plotHeight := 300 }
        { xMin := 1/4, xMax := 3/4, yMin := 0, yMax := 1 }
        { mode := DragMode.select, dir := DragDir.x, startX := 100,
          startY := 50, lastX := 300, lastY := 50,
          zoomAtStart := { xMin := 1/4, xMax := 3/4, yMin := 0, yMax := 1 } }
        none 300 50).1
      = { xMin := 3/8, xMax := 5/8, yMin := 0, yMax := 1 } := by
  constructor
  · have h := (C3_zoom_composition
      { plotX := 0, plotY := 0, plotWidth := 400, plotHeight := 300 }
      NO_ZOOM
      { mode := DragMode.select, dir := DragDir.x, startX := 100,
        startY := 50, lastX := 300, lastY := 50, zoomAtStart := NO_ZOOM }
      none 300 50 rfl).1 rfl (by norm_num [MIN_SELECTION])
    rw [h]
    norm_num [NO_ZOOM]
  · have h := (C3_zoom_composition
      { plotX := 0, plotY := 0, plotWidth := 400, plotHeight := 300 }
      { xMin := 1/4, xMax := 3/4, yMin := 0, yMax := 1 }
      { mode := DragMode.select, dir := DragDir.x, startX := 100,
        startY := 50, lastX := 300, lastY := 50,
        zoomAtStart := { xMin := 1/4, xMax := 3/4, yMin := 0, yMax := 1 } }
      none 300 50 rfl).1 rfl (by norm_num [MIN_SELECTION])
    rw [h]
    norm_num

/-- Helper: length of a `flatMap` whose piece lengths are given by `g`. -/
theorem flatMap_length_of {α β : Type} (l : List α) (f : α → List β)
    (g : α → ℕ) (h : ∀ a ∈ l, (f a).length = g a) :
    (l.flatMap f).length = (l.map g).sum := by
  induction l with
  | nil => rfl
  | cons a t ih =>
    simp only [List.flatMap_cons, List.length_append, List.map_cons,
               List.sum_cons, h a (List.mem_cons_self a t)]
    rw [ih fun b hb => h b (List.mem_cons_of_mem a hb)]

/-- Helper: the vertex floats of one circle number `18 · segments`. -/
theorem circleVerts_length (pc : String → RGBA) (cosF sinF : ℚ → ℚ)
    (piF : ℚ) (w h : ℚ) (ci : Circle) :
    (circleVerts pc cosF sinF piF w h ci).length
      = 18 * ci.segments.getD 24 := by
  unfold circleVerts
  rw [flatMap_length_of _ _ (fun _ => 18) (by intro a _; rfl)]
  simp [List.map_const', Nat.mul_comm]

/-- Helper: the full per-frame vertex list holds
    `18 · (2·N + 2·M + Σ segments)` floats. -/
theorem drawVerts_length (pc : String → RGBA) (sqrtF cosF sinF : ℚ → ℚ)
    (piF : ℚ) (w h : ℚ) (rects : List Rect) (lines : List Line)
    (circles : List Circle) :
    (drawVerts pc sqrtF cosF sinF piF w h rects lines circles).length
      = 18 * (2 * rects.length + 2 * lines.length +
              (circles.map fun c => c.segments.getD 24).sum) := by
  unfold drawVerts
  rw [List.length_append, List.length_append,
      flatMap_length_of _ _ (fun _ => 36) (by intro a _; rfl),
      flatMap_length_of _ _ (fun _ => 36) (by intro a _; rfl),
      flatMap_length_of _ _ (fun c => 18 * c.segments.getD 24)
        (by intro a _; exact circleVerts_length pc cosF sinF piF w h a)]
  have hmul : ∀ l : List Circle,
      (l.map fun c => 18 * c.segments.getD 24).sum
        = 18 * (l.map fun c => c.segments.getD 24).sum := by
    intro l
    induction l with
    | nil => rfl
    | cons a t ih => simp [ih]; ring
  rw [hmul]
  simp [List.map_const', List.sum_replicate]
  ring

/-- C1 counterexample: drawing one circle with `segmentCount 0` (a
    non-empty combination: N = 0, M = 0, K = 1) on an initialized renderer
    issues one submission that contains no draw call at all (a clear-only
    pass), while the claim demands exactly one draw call. -/
theorem C1_counterexample :
    (let out := draw (fun _ => (0, 0, 0, 1)) id id id 3
        { device := true, context := true, pipeline := true,
          canvas := some (100, 100), ready := true, msaaTexture := false,
          msaaWidth := 0, msaaHeight := 0 }
        [] []
        [{ cx := 0, cy := 0, r := 1, color := "c", segments := some 0 }]
        (1, 1, 1, 1) none
     out.2.length = 1 ∧ out.2.map Submission.draws = [[]]) := by
  constructor <;> rfl

/-- C1 (amended): on an initialized renderer, whenever the total triangle
    count `T = 2·N + 2·M + Σ s_k` is positive, one `draw` call issues
    exactly one queue submission containing exactly one draw call, the
    vertex buffer holds exactly `6 · 3 · T` floats, and the draw covers
    `3 · T` vertices.  (When `T = 0` — possible even for a non-empty
    primitive combination, e.g. a single circle with `segmentCount 0` —
    the code instead submits a clear-only pass with no draw call.) -/
theorem C1_single_draw_call (pc : String → RGBA) (sqrtF cosF sinF : ℚ → ℚ)
    (piF : ℚ) (r : GPURenderer) (rects : List Rect) (lines : List Line)
    (circles : List Circle) (bg : RGBA) (clip : Option ClipRect)
    (w h : ℚ)
    (hdev : r.device = true) (hctx : r.context = true)
    (hpip : r.pipeline = true) (hcanvas : r.canvas = some (w, h))
    (hT : 0 < 2 * rects.length + 2 * lines.length +
            (circles.map fun c => c.segments.getD 24).sum) :
    (drawVerts pc sqrtF cosF sinF piF w h rects lines circles).length
      = 6 * 3 * (2 * rects.length + 2 * lines.length +
                 (circles.map fun c => c.segments.getD 24).sum) ∧
    (draw pc sqrtF cosF sinF piF r rects lines circles bg clip).2.map
        Submission.draws
      = [[3 * (2 * rects.length + 2 * lines.length +
               (circles.map fun c => c.segments.getD 24).sum)]] := by
  have hlen := drawVerts_length pc sqrtF cosF sinF piF w h rects lines circles
  refine ⟨by rw [hlen], ?_⟩
  unfold draw
  rw [hcanvas]
  dsimp only
  rw [if_neg (by simp [hdev, hctx, hpip])]
  rw [if_neg (by rw [hlen]; omega)]
  simp only [List.map_cons, List.map_nil]
  rw [hlen]
  simp only [FLOATS_PER_VERTEX, List.cons.injEq, and_true]
  omega

/-- C1 witness: one rect, one segment and one default (24-segment) circle
    give `T = 2 + 2 + 24 = 28` triangles, a 504-float buffer and a single
    draw call of 84 vertices. -/
theorem C1_single_draw_call_witness :
    (drawVerts (fun _ => (0, 0, 0, 1)) id id id 3 100 100
        [{ x := 0, y := 0, w := 10, h := 10, color := "r" }]
        [{ x1 := 0, y1 := 0, x2 := 5, y2 := 5, color := "g", width := none }]
        [{ cx := 0, cy := 0, r := 1, color := "b", segments := none }]).length
      = 504 ∧
    (draw (fun _ => (0, 0, 0, 1)) id id id 3
        { device := true, context := true, pipeline := true,
          canvas := some (100, 100), ready := true, msaaTexture := false,
          msaaWidth := 0, msaaHeight := 0 }
        [{ x := 0, y := 0, w := 10, h := 10, color := "r" }]
        [{ x1 := 0, y1 := 0, x2 := 5, y2 := 5, color := "g", width := none }]
        [{ cx := 0, cy := 0, r := 1, color := "b", segments := none }]
        (1, 1, 1, 1) none).2.map Submission.draws
      = [[84]] := by
  have h := C1_single_draw_call (fun _ => (0, 0, 0, 1)) id id id 3
    { device := true, context := true, pipeline := true,
      canvas := some (100, 100), ready := true, msaaTexture := false,
      msaaWidth := 0, msaaHeight := 0 }
    [{ x := 0, y := 0, w := 10, h := 10, color := "r" }]
    [{ x1 := 0, y1 := 0, x2 := 5, y2 := 5, color := "g", width := none }]
    [{ cx := 0, cy := 0, r := 1, color := "b", segments := none }]
    (1, 1, 1, 1) none 100 100 rfl rfl rfl rfl (by norm_num)
  exact ⟨h.1, h.2⟩

/-- C6 counterexample: for the clip rectangle `{x := -5, y := 0,
    width := 10, height := 10}` on a 100×100 canvas, the scissor actually
    applied is `(0, 0, 10, 10)` while the clip rectangle clamped to the
    canvas bounds is `(0, 0, 5, 10)` — the left overflow is not subtracted
    from the width, so the applied scissor is not the clamped rectangle. -/
theorem C6_counterexample :
    scissorOf 100 100 { x := -5, y := 0, width := 10, height := 10 }
      = some (0, 0, 10, 10) ∧
    clampRectSpec 100 100 { x := -5, y := 0, width := 10, height := 10 }
      = (0, 0, 5, 10) ∧
    ((0, 0, 10, 10) : ℚ × ℚ × ℚ × ℚ) ≠ (0, 0, 5, 10) := by
  refine ⟨?_, ?_, by norm_num⟩
  · unfold scissorOf
    norm_num [jsRound]
  · unfold clampRectSpec
    norm_num [jsRound]

/-- C6 (amended): the scissor actually applied is the rounded clip
    rectangle with its origin clamped below at 0 and its extent truncated
    at the right/bottom canvas edge; it always lies inside `[0,w] × [0,h]`,
    and no scissor at all is set whenever the truncated width or height is
    ≤ 0.  When the rounded clip origin is non-negative this coincides with
    the clip rectangle clamped to the canvas bounds; a clip crossing the
    left or top edge, however, keeps its full rounded extent (the overflow
    is not subtracted), so there it scissors a larger area than the true
    clamped rectangle. -/
theorem C6_scissor_clamped (w h : ℚ) (clip : ClipRect) :
    (∀ s : ℚ × ℚ × ℚ × ℚ, scissorOf w h clip = some s →
       0 ≤ s.1 ∧ 0 ≤ s.2.1 ∧ 0 < s.2.2.1 ∧ 0 < s.2.2.2 ∧
       s.1 + s.2.2.1 ≤ w ∧ s.2.1 + s.2.2.2 ≤ h) ∧
    ((min (w - max 0 (jsRound clip.x : ℚ)) (jsRound clip.width : ℚ) ≤ 0 ∨
      min (h - max 0 (jsRound clip.y : ℚ)) (jsRound clip.height : ℚ) ≤ 0) →
      scissorOf w h clip = none) ∧
    (0 ≤ jsRound clip.x → 0 ≤ jsRound clip.y →
      scissorOf w h clip =
        (if 0 < (clampRectSpec w h clip).2.2.1 ∧
            0 < (clampRectSpec w h clip).2.2.2
         then some (clampRectSpec w h clip) else none)) := by
  refine ⟨?_, ?_, ?_⟩
  · intro s hs
    unfold scissorOf at hs
    dsimp only at hs
    split_ifs at hs with hc
    · simp only [Option.some.injEq] at hs
      subst hs
      have hw := min_le_left (w - max 0 ((jsRound clip.x : ℤ) : ℚ))
        ((jsRound clip.width : ℤ) : ℚ)
      have hh := min_le_left (h - max 0 ((jsRound clip.y : ℤ) : ℚ))
        ((jsRound clip.height : ℤ) : ℚ)
      refine ⟨le_max_left 0 _, le_max_left 0 _, hc.1, hc.2, ?_, ?_⟩
      · dsimp only
        linarith
      · dsimp only
        linarith
  · intro hskip
    unfold scissorOf
    dsimp only
    rw [if_neg]
    intro hc
    rcases hskip with hk | hk
    · exact absurd hc.1 (not_lt.mpr hk)
    · exact absurd hc.2 (not_lt.mpr hk)
  · intro hx hy
    have hmx : max 0 ((jsRound clip.x : ℤ) : ℚ) = (jsRound clip.x : ℚ) :=
      max_eq_right (by exact_mod_cast hx)
    have hmy : max 0 ((jsRound clip.y : ℤ) : ℚ) = (jsRound clip.y : ℚ) :=
      max_eq_right (by exact_mod_cast hy)
    have hdx : min w ((jsRound clip.x : ℚ) + (jsRound clip.width : ℚ)) -
        (jsRound clip.x : ℚ)
        = min (w - (jsRound clip.x : ℚ)) ((jsRound clip.width : ℚ)) := by
      rcases le_total w ((jsRound clip.x : ℚ) + (jsRound clip.width : ℚ))
        with hle | hle
      · rw [min_eq_left hle, min_eq_left (by linarith)]
      · rw [min_eq_right hle, min_eq_right (by linarith)]
        ring
    have hdy : min h ((jsRound clip.y : ℚ) + (jsRound clip.height : ℚ)) -
        (jsRound clip.y : ℚ)
        = min (h - (jsRound clip.y : ℚ)) ((jsRound clip.height : ℚ)) := by
      rcases le_total h ((jsRound clip.y : ℚ) + (jsRound clip.height : ℚ))
        with hle | hle
      · rw [min_eq_left hle, min_eq_left (by linarith)]
      · rw [min_eq_right hle, min_eq_right (by linarith)]
        ring
    unfold scissorOf clampRectSpec
    dsimp only
    rw [hmx, hmy, hdx, hdy]

/-- C6 witness: a fully interior clip rectangle `{2, 3, 10, 10}` on a
    100×100 canvas is applied verbatim and equals its clamp to the canvas. -/
theorem C6_scissor_clamped_witness :
    scissorOf 100 100 { x := 2, y := 3, width := 10, height := 10 }
      = (if 0 < (clampRectSpec 100 100
              { x := 2, y := 3, width := 10, height := 10 }).2.2.1 ∧
            0 < (clampRectSpec 100 100
              { x := 2, y := 3, width := 10, height := 10 }).2.2.2
         then some (clampRectSpec 100 100
              { x := 2, y := 3, width := 10, height := 10 }) else none) :=
  (C6_scissor_clamped 100 100
    { x := 2, y := 3, width := 10, height := 10 }).2.2
    (by norm_num [jsRound]) (by norm_num [jsRound])

/-- C5 counterexample: mounted with `enabled = false`, the hook starts
    with `entranceProgress = 1`; a single later trigger pass with
    `ready = true, enabled = true` fires the entrance and resets the
    progress to 0 — so `entranceProgress` is not monotonically
    non-decreasing over that transition sequence. -/
theorem C5_counterexample :
    ¬ ((enterInit false).progress
        ≤ (enterRun (enterInit false) [(true, true)]).progress) := by
  norm_num [enterInit, enterRun, enterEffect]

/-- Helper: `enterRun` distributes over list append. -/
theorem enterRun_append (L₁ L₂ : List (Bool × Bool)) :
    ∀ s : EnterState, enterRun s (L₁ ++ L₂) = enterRun (enterRun s L₁) L₂ := by
  induction L₁ with
  | nil => intro s; rfl
  | cons p t ih => intro s; exact ih (enterEffect s p.1 p.2)

/-- Helper: `startCount` plus the pending-entrance credit never grows. -/
theorem enterRun_count_le (L : List (Bool × Bool)) :
    ∀ s : EnterState,
      (enterRun s L).startCount +
          (if (enterRun s L).hasEntered then 0 else 1)
        ≤ s.startCount + (if s.hasEntered then 0 else 1) := by
  induction L with
  | nil => intro s; exact le_refl _
  | cons p t ih =>
    intro s
    refine le_trans (ih (enterEffect s p.1 p.2)) ?_
    unfold enterEffect
    cases hE : s.hasEntered <;> cases p.1 <;> cases p.2 <;> simp [hE]

/-- Helper: the invariant carried along a constant-`enabled` run, together
    with one-step monotonicity of the progress value. -/
theorem enterStep_mono (e₀ : Bool) (s : EnterState) (r e : Bool)
    (he : e = e₀)
    (hq : (e₀ = true →
            (s.hasEntered = false → s.progress = 0) ∧ s.progress ≤ 1) ∧
          (e₀ = false → s.hasEntered = false ∧ s.progress = 1)) :
    ((e₀ = true →
        ((enterEffect s r e).hasEntered = false →
          (enterEffect s r e).progress = 0) ∧
        (enterEffect s r e).progress ≤ 1) ∧
     (e₀ = false →
        (enterEffect s r e).hasEntered = false ∧
        (enterEffect s r e).progress = 1)) ∧
    s.progress ≤ (enterEffect s r e).progress := by
  subst he
  unfold enterEffect
  rcases e with _ | _
  · obtain ⟨hf, hp⟩ := hq.2 rfl
    cases r <;> simp [hf, hp]
  · obtain ⟨h0, h1⟩ := hq.1 rfl
    cases hE : s.hasEntered
    · have hp := h0 hE
      cases r <;> simp [hE, hp, h1]
    · cases r <;> simp [hE, h1]

/-- Helper: the invariant and monotonicity extended over a whole
    constant-`enabled` run. -/
theorem enterRun_mono (e₀ : Bool) (L : List (Bool × Bool))
    (hconst : ∀ p ∈ L, p.2 = e₀) :
    ∀ s : EnterState,
      ((e₀ = true →
          (s.hasEntered = false → s.progress = 0) ∧ s.progress ≤ 1) ∧
       (e₀ = false → s.hasEntered = false ∧ s.progress = 1)) →
      ((e₀ = true →
          ((enterRun s L).hasEntered = false →
            (enterRun s L).progress = 0) ∧ (enterRun s L).progress ≤ 1) ∧
       (e₀ = false →
          (enterRun s L).hasEntered = false ∧
          (enterRun s L).progress = 1)) ∧
      s.progress ≤ (enterRun s L).progress := by
  induction L with
  | nil => intro s hq; exact ⟨hq, le_refl _⟩
  | cons p t ih =>
    intro s hq
    have hstep := enterStep_mono e₀ s p.1 p.2
      (hconst p (List.mem_cons_self p t)) hq
    have hrest := ih (fun q hq' => hconst q (List.mem_cons_of_mem p hq'))
      (enterEffect s p.1 p.2) hstep.1
    exact ⟨hrest.1, le_trans hstep.2 hrest.2⟩

/-- C5 (amended): within one component lifetime the entrance track starts
    at most once, for every sequence of ready/enabled trigger passes; and
    when the `enabled` flag is constant over the lifetime,
    `entranceProgress` is monotonically non-decreasing along the run — in
    particular, mounted with `enabled = false` and kept disabled it is
    immediately and permanently 1.  (When `enabled` flips from false to
    true before the entrance has fired, the firing pass resets progress
    from 1 to 0, the single exception to monotonicity.) -/
theorem C5_entrance_once_monotone (e₀ : Bool)
    (Lany L₁ L₂ : List (Bool × Bool))
    (hconst : ∀ p ∈ L₁ ++ L₂, p.2 = e₀) :
    (enterRun (enterInit e₀) Lany).startCount ≤ 1 ∧
    (e₀ = false → (enterRun (enterInit e₀) (L₁ ++ L₂)).progress = 1) ∧
    (enterRun (enterInit e₀) L₁).progress
      ≤ (enterRun (enterInit e₀) (L₁ ++ L₂)).progress := by
  have hinit : ((e₀ = true →
      ((enterInit e₀).hasEntered = false → (enterInit e₀).progress = 0) ∧
      (enterInit e₀).progress ≤ 1) ∧
      (e₀ = false →
        (enterInit e₀).hasEntered = false ∧ (enterInit e₀).progress = 1)) := by
    rcases e₀ with _ | _ <;> simp [enterInit]
  refine ⟨?_, ?_, ?_⟩
  · have h := enterRun_count_le Lany (enterInit e₀)
    have h0 : (enterInit e₀).startCount = 0 := rfl
    have h1 : (enterInit e₀).hasEntered = false := rfl
    rw [h0, h1] at h
    simp only [Bool.false_eq_true, if_false] at h
    split_ifs at h <;> omega
  · intro he
    exact ((enterRun_mono e₀ (L₁ ++ L₂) hconst (enterInit e₀) hinit).1.2 he).2
  · rw [enterRun_append]
    have h₁ := enterRun_mono e₀ L₁
      (fun q hq' => hconst q (List.mem_append_left L₂ hq')) (enterInit e₀)
      hinit
    have h₂ := enterRun_mono e₀ L₂
      (fun q hq' => hconst q (List.mem_append_right L₁ hq'))
      (enterRun (enterInit e₀) L₁) h₁.1
    exact h₂.2

/-- C5 witness: with `enabled = true` throughout, over the pass sequence
    not-ready, ready (fires), ready again, the entrance starts once and
    progress never decreases. -/
theorem C5_entrance_once_monotone_witness :
    (enterRun (enterInit true)
        [(false, true), (true, true), (true, true)]).startCount ≤ 1 ∧
    (enterRun (enterInit true) [(false, true), (true, true)]).progress
      ≤ (enterRun (enterInit true)
          [(false, true), (true, true), (true, true)]).progress := by
  have h := C5_entrance_once_monotone true
    [(false, true), (true, true), (true, true)]
    [(false, true), (true, true)] [(true, true)]
    (by intro p hp; fin_cases hp <;> rfl)
  exact ⟨h.1, h.2.2⟩

/-- Helper: `easeOutCubic` is at least 1 from time 1 on. -/
theorem easeOutCubic_ge_one (t : ℚ) (h : 1 ≤ t) : 1 ≤ easeOutCubic t := by
  unfold easeOutCubic
  nlinarith [sq_nonneg (1 - t)]

/-- Helper: one tick never changes the track configuration — start times,
    from/to vectors and series count are read-only to the tick. -/
theorem tick_preserves (dur : ℚ) (s : AnimState) (now : ℚ) :
    (tick dur s now).1.enterStart = s.enterStart ∧
    (tick dur s now).1.visStart = s.visStart ∧
    (tick dur s now).1.visFrom = s.visFrom ∧
    (tick dur s now).1.visTo = s.visTo ∧
    (tick dur s now).1.seriesCount = s.seriesCount :=
  ⟨rfl, rfl, rfl, rfl, rfl⟩

/-- Helper: a tick keeps `enterProgress` at most 1. -/
theorem tick_progress_le (dur : ℚ) (s : AnimState) (now : ℚ)
    (h : s.enterProgress ≤ 1) : (tick dur s now).1.enterProgress ≤ 1 := by
  unfold tick
  dsimp only
  split_ifs with hlt
  · exact min_le_left 1 _
  · exact h

/-- Helper: the tick run preserves the track configuration and the
    progress bound. -/
theorem ticksRun_preserves (dur : ℚ) (f : ℕ → ℚ) (s : AnimState)
    (hp : s.enterProgress ≤ 1) :
    ∀ n : ℕ,
      (ticksRun dur f s n).enterStart = s.enterStart ∧
      (ticksRun dur f s n).visStart = s.visStart ∧
      (ticksRun dur f s n).visFrom = s.visFrom ∧
      (ticksRun dur f s n).visTo = s.visTo ∧
      (ticksRun dur f s n).seriesCount = s.seriesCount ∧
      (ticksRun dur f s n).enterProgress ≤ 1 := by
  intro n
  induction n with
  | zero => exact ⟨rfl, rfl, rfl, rfl, rfl, hp⟩
  | succ n ih =>
    obtain ⟨h1, h2, h3, h4, h5, h6⟩ := ih
    have hk := tick_preserves dur (ticksRun dur f s n) (f n)
    exact ⟨hk.1.trans h1, hk.2.1.trans h2, hk.2.2.1.trans h3,
           hk.2.2.2.1.trans h4, hk.2.2.2.2.trans h5,
           tick_progress_le dur _ (f n) h6⟩

/-- Helper: a tick at a timestamp at least one duration past both track
    starts converges in one step — progress 1, every visibility value
    snapped to its target, and `allDone` true so no further frame is
    scheduled. -/
theorem tick_converged (dur : ℚ) (s : AnimState) (now : ℚ)
    (hdur : 0 < dur) (hp : s.enterProgress ≤ 1)
    (hE : s.enterStart + dur ≤ now) (hV : s.visStart + dur ≤ now) :
    (tick dur s now).1.enterProgress = 1 ∧
    (tick dur s now).1.visCurrent
      = (List.range s.seriesCount).map (fun i => s.visTo.getD i 1) ∧
    (tick dur s now).2 = true := by
  have htE : (1 : ℚ) ≤ max 0 ((now - s.enterStart) / dur) :=
    le_trans (by rw [one_le_div hdur]; linarith) (le_max_right 0 _)
  have htV : (1 : ℚ) ≤ max 0 ((now - s.visStart) / dur) :=
    le_trans (by rw [one_le_div hdur]; linarith) (le_max_right 0 _)
  have heE : min 1 (easeOutCubic (max 0 ((now - s.enterStart) / dur))) = 1 :=
    min_eq_left (easeOutCubic_ge_one _ htE)
  have heV : min 1 (easeOutCubic (max 0 ((now - s.visStart) / dur))) = 1 :=
    min_eq_left (easeOutCubic_ge_one _ htV)
  unfold tick
  dsimp only
  simp only [heV]
  refine ⟨?_, ?_, ?_⟩
  · split_ifs with hlt
    · exact heE
    · exact le_antisymm hp (not_lt.mp hlt)
  · rw [List.map_map]
    refine List.map_congr_left ?_
    intro i _
    dsimp only [Function.comp]
    by_cases h1 : |s.visFrom.getD i 1 - s.visTo.getD i 1| < VIS_EPS
    · rw [if_pos h1]
    · rw [if_neg h1]
      have hval : s.visFrom.getD i 1 +
          (s.visTo.getD i 1 - s.visFrom.getD i 1) * 1
          = s.visTo.getD i 1 := by ring
      rw [hval, sub_self, abs_zero, if_pos (by norm_num [VIS_EPS])]
  · rw [Bool.and_eq_true]
    constructor
    · split_ifs with hlt
      · rw [heE]
        decide
      · rfl
    · rw [List.all_eq_true]
      intro x hx
      rw [List.mem_map] at hx
      obtain ⟨i, _, rfl⟩ := hx
      by_cases h1 : |s.visFrom.getD i 1 - s.visTo.getD i 1| < VIS_EPS
      · rw [if_pos h1]
      · rw [if_neg h1]
        have hval : s.visFrom.getD i 1 +
            (s.visTo.getD i 1 - s.visFrom.getD i 1) * 1
            = s.visTo.getD i 1 := by ring
        rw [hval, sub_self, abs_zero, if_pos (by norm_num [VIS_EPS])]

/-- Helper: reading a list back by index recovers the list. -/
theorem map_getD_range (l : List ℚ) (d : ℚ) :
    (List.range l.length).map (fun i => l.getD i d) = l := by
  induction l with
  | nil => rfl
  | cons a t ih =>
    rw [List.length_cons, List.range_succ_eq_map, List.map_cons,
        List.map_map]
    simp only [List.getD_cons_zero, Function.comp, List.getD_cons_succ]
    exact congrArg (a :: ·) ih

/-- C4: for any duration > 0, entrance start time, and visibility from/to
    vectors with entries in `[0,1]`, running the animation tick repeatedly
    at strictly increasing (and, as physical frame timestamps, unbounded)
    times eventually produces a tick on which `entranceProgress = 1`, every
    per-series visibility value equals its target exactly (the `1e-3`
    snap), and the tick reports `allDone`, i.e. it returns without
    scheduling another animation frame. -/
theorem C4_animation_convergence (dur : ℚ) (s : AnimState) (f : ℕ → ℚ)
    (hdur : 0 < dur)
    (hprog0 : 0 ≤ s.enterProgress) (hprog1 : s.enterProgress ≤ 1)
    (hfrom : ∀ v ∈ s.visFrom, 0 ≤ v ∧ v ≤ 1)
    (hto : ∀ v ∈ s.visTo, 0 ≤ v ∧ v ≤ 1)
    (hlen : s.visTo.length = s.seriesCount)
    (hmono : StrictMono f)
    (hub : ∀ B : ℚ, ∃ n, B ≤ f n) :
    ∃ n : ℕ,
      (tick dur (ticksRun dur f s n) (f n)).1.enterProgress = 1 ∧
      (tick dur (ticksRun dur f s n) (f n)).1.visCurrent = s.visTo ∧
      (tick dur (ticksRun dur f s n) (f n)).2 = true := by
  obtain ⟨n, hn⟩ := hub (max (s.enterStart + dur) (s.visStart + dur))
  obtain ⟨k1, k2, k3, k4, k5, k6⟩ := ticksRun_preserves dur f s hprog1 n
  have hc := tick_converged dur (ticksRun dur f s n) (f n) hdur k6
    (by rw [k1]; exact le_trans (le_max_left _ _) hn)
    (by rw [k2]; exact le_trans (le_max_right _ _) hn)
  refine ⟨n, hc.1, ?_, hc.2.2⟩
  rw [hc.2.1, k5, k4, ← hlen, map_getD_range]

/-- C4 witness: duration 600, one series fading from 1 to 0, ticks at the
    unbounded strictly increasing timestamps `f n = n`. -/
theorem C4_animation_convergence_witness :
    ∃ n : ℕ,
      (tick 600 (ticksRun 600 (fun n => (n : ℚ))
          { enterStart := 0, enterProgress := 0, visFrom := [1],
            visTo := [0], visCurrent := [1], visStart := 0,
            seriesCount := 1 } n) ((n : ℚ))).1.enterProgress = 1 ∧
      (tick 600 (ticksRun 600 (fun n => (n : ℚ))
          { enterStart := 0, enterProgress := 0, visFrom := [1],
            visTo := [0], visCurrent := [1], visStart := 0,
            seriesCount := 1 } n) ((n : ℚ))).1.visCurrent = [0] ∧
      (tick 600 (ticksRun 600 (fun n => (n : ℚ))
          { enterStart := 0, enterProgress := 0, visFrom := [1],
            visTo := [0], visCurrent := [1], visStart := 0,
            seriesCount := 1 } n) ((n : ℚ))).2 = true :=
  C4_animation_convergence 600
    { enterStart := 0, enterProgress := 0, visFrom := [1], visTo := [0],
      visCurrent := [1], visStart := 0, seriesCount := 1 }
    (fun n => (n : ℚ)) (by norm_num) le_rfl (by norm_num)
    (by intro v hv; rw [List.mem_singleton] at hv; subst hv; norm_num)
    (by intro v hv; rw [List.mem_singleton] at hv; subst hv; norm_num)
    rfl
    (fun a b hab => by simp only []; exact_mod_cast hab)
    (fun B => ⟨⌈B⌉₊, Nat.le_ceil B⟩)

end WebGPUGraph
